import Mathlib

/-!
Shallow embedding of the chat-share-page extractor (`src/extractor.py`,
`ChatGPTExtractor.extract_chat`).  The rendered DOM is modelled as a tree of
elements; the in-page JavaScript passed to `page.evaluate` is translated
function by function, and the surrounding Python control flow (selector
probing, document assembly) as a pure function returning the emitted side
effects together with either an error or the assembled document.
-/

/-- A rendered DOM element: tag name, attribute list, the text the browser
would report as `innerText`, and the child elements in document order. -/
inductive Element where
  | mk (tag : String) (attrs : List (String × String)) (innerText : String)
       (children : List Element)

def Element.tag : Element → String
  | .mk t _ _ _ => t

def Element.attrs : Element → List (String × String)
  | .mk _ a _ _ => a

def Element.innerText : Element → String
  | .mk _ _ i _ => i

def Element.children : Element → List Element
  | .mk _ _ _ c => c

/-- DOM `getAttribute`: the value of the first binding of the attribute,
or `none` when the attribute is absent. -/
def Element.getAttribute (e : Element) (name : String) : Option String :=
  (e.attrs.find? (fun p => p.1 == name)).map (fun p => p.2)

/-- Whether `s` occurs as a prefix of `l` (over character lists). -/
def isPrefixList : List Char → List Char → Bool
  | [], _ => true
  | _ :: _, [] => false
  | a :: as, b :: bs => a == b && isPrefixList as bs

/-- Whether `s` occurs as a contiguous substring of the second list; used for
the CSS substring attribute selector `[attr*=value]`. -/
def containsSub (s : List Char) : List Char → Bool
  | [] => isPrefixList s []
  | c :: cs => isPrefixList s (c :: cs) || containsSub s cs

/-- The CSS selector forms appearing in the source: a tag selector,
an attribute-presence selector `[a]`, a substring attribute selector
`[a*=v]`, and a tag with an exact attribute value `t[a=v]`. -/
inductive Selector where
  | tag (name : String)
  | hasAttr (attr : String)
  | attrContains (attr : String) (sub : String)
  | tagAttrEq (name : String) (attr : String) (value : String)
deriving DecidableEq

def matchesSel : Selector → Element → Bool
  | .tag t, e => e.tag == t
  | .hasAttr a, e => (e.getAttribute a).isSome
  | .attrContains a sub, e =>
    match e.getAttribute a with
    | some v => containsSub sub.data v.data
    | none => false
  | .tagAttrEq t a v, e => e.tag == t && e.getAttribute a == some v

/-- Document-order (pre-order) traversal of a forest of elements. -/
def preorderList : List Element → List Element
  | [] => []
  | .mk t a i ch :: cs => .mk t a i ch :: (preorderList ch ++ preorderList cs)

/-- All elements of the page in document order (`document.querySelectorAll`
traversal order), the root included. -/
def domElements (page : Element) : List Element :=
  preorderList [page]

/-- The strict descendants of an element in document order; `el.querySelector`
searches these. -/
def strictDescendants (e : Element) : List Element :=
  preorderList e.children

/-- `document.querySelectorAll(sel)`: every element matching `sel`,
in document order. -/
def querySelectorAll (page : Element) (s : Selector) : List Element :=
  (domElements page).filter (matchesSel s)

def matchesAny (sels : List Selector) (e : Element) : Bool :=
  sels.any (fun s => matchesSel s e)

/-- `document.querySelector("s1, s2, ...")`: the first element in document
order matching any selector of the comma-separated list. -/
def docQuerySelector (page : Element) (sels : List Selector) : Option Element :=
  (domElements page).find? (matchesAny sels)

/-- `el.querySelector("s1, s2, ...")`: the first strict descendant of `el`
in document order matching any selector of the list. -/
def Element.querySelector (e : Element) (sels : List Selector) : Option Element :=
  (strictDescendants e).find? (matchesAny sels)

/-- JavaScript `String.prototype.trim` on the character list: drop whitespace
from both ends. -/
def trimChars (l : List Char) : List Char :=
  ((l.dropWhile Char.isWhitespace).reverse.dropWhile Char.isWhitespace).reverse

/-- JavaScript `s.trim()`. -/
def jsTrim (s : String) : String :=
  String.mk (trimChars s.data)

/-- One conversational turn of the output document. -/
structure Message where
  role : String
  content : String
deriving DecidableEq

/-- The `metadata` object of the assembled chat document. -/
structure Metadata where
  source : String
  chat_id : String
  title : String
  extracted_at : String
  url : String
  message_count : Nat
deriving DecidableEq

/-- The assembled output record (`chat_data` in the source). -/
structure ChatDocument where
  metadata : Metadata
  messages : List Message
deriving DecidableEq

/-- The author-role marker attribute probed by extraction strategy 1. -/
def roleSelector : Selector := .hasAttr "data-message-author-role"

/-- The selector list of `el.querySelector` inside strategy 1:
`'[class*="markdown"], [class*="message"], div'`. -/
def contentSelectors : List Selector :=
  [.attrContains "class" "markdown", .attrContains "class" "message", .tag "div"]

/-- The selector list of the title query: `'h1, h2, [class*="title"]'`. -/
def titleSelectors : List Selector :=
  [.tag "h1", .tag "h2", .attrContains "class" "title"]

/-- The prioritized probe list `selectors_to_try` of the source. -/
def selectors_to_try : List Selector :=
  [.tag "article",
   .hasAttr "data-message-author-role",
   .attrContains "class" "message",
   .attrContains "class" "conversation",
   .tag "main",
   .tagAttrEq "div" "role" "presentation"]

/-- `el.getAttribute('data-message-author-role')` as read by strategy 1; every
element it is applied to was selected for carrying the attribute. -/
def roleValue (e : Element) : String :=
  (e.getAttribute "data-message-author-role").getD ""

/-- The `content` local of strategy 1: the text of the first descendant
matching the content selector list when one exists, else the element's own
`innerText`. -/
def contentSource (e : Element) : String :=
  (e.querySelector contentSelectors).elim e.innerText (fun ce => ce.innerText)

/-- Strategy 1 of the in-page script: for every element carrying the
author-role marker, push the role attribute verbatim and the trimmed content
whenever the trimmed content is non-empty. -/
def strategy1 (messageElements : List Element) : List Message :=
  messageElements.foldl
    (fun acc el =>
      if jsTrim (contentSource el) ≠ "" then
        acc ++ [{ role := roleValue el, content := jsTrim (contentSource el) }]
      else acc)
    []

/-- Strategy 2 of the in-page script: for every `article` element, indexed in
document order, push the trimmed text with the role alternating
user/assistant by index, skipping articles with empty trimmed text. -/
def strategy2 (articles : List Element) : List Message :=
  articles.enum.foldl
    (fun acc ia =>
      if jsTrim ia.2.innerText ≠ "" then
        acc ++ [{ role := if ia.1 % 2 = 0 then "user" else "assistant",
                  content := jsTrim ia.2.innerText }]
      else acc)
    []

/-- The filter of strategy 3: `text && text.trim().length > 50 &&
div.children.length < 5`. -/
def contentDivFilter (d : Element) : Bool :=
  decide (d.innerText ≠ "") && decide (50 < (jsTrim d.innerText).length)
    && decide (d.children.length < 5)

/-- Strategy 3 of the in-page script: keep the `div` elements passing
`contentDivFilter`, then push every one of them, indexed over the filtered
list, with the alternating role labeling and trimmed text. -/
def strategy3 (page : Element) : List Message :=
  let allDivs := querySelectorAll page (.tag "div")
  let contentDivs := allDivs.filter contentDivFilter
  contentDivs.enum.foldl
    (fun acc ia =>
      acc ++ [{ role := if ia.1 % 2 = 0 then "user" else "assistant",
                content := jsTrim ia.2.innerText }])
    []

/-- The whole message-extraction script: strategy 1 runs when at least one
element carries the role attribute; otherwise strategy 2 runs when at least
one `article` exists; otherwise strategy 3 runs. -/
def extractMessages (page : Element) : List Message :=
  let messageElements := querySelectorAll page roleSelector
  if messageElements.length > 0 then
    strategy1 messageElements
  else
    let articles := querySelectorAll page (.tag "article")
    if articles.length > 0 then
      strategy2 articles
    else
      strategy3 page

/-- The title script: trimmed text of the first `h1, h2, [class*="title"]`
match, else the placeholder. -/
def extractTitle (page : Element) : String :=
  (docQuerySelector page titleSelectors).elim "Untitled Chat"
    (fun el => jsTrim el.innerText)

/-- Python `share_url.split('/')` on the character list (single-character
separator, empty segments kept). -/
def splitSlash : List Char → List (List Char)
  | [] => [[]]
  | c :: cs =>
    let rest := splitSlash cs
    if c = '/' then [] :: rest
    else
      match rest with
      | r :: rs => (c :: r) :: rs
      | [] => [[c]]

/-- `share_url.split('/')[-1]`: the last segment of the URL split on `/`. -/
def chat_id (share_url : String) : String :=
  String.mk ((splitSlash share_url.data).getLastD [])

/-- The failure raised when no probed selector matches
(`Exception("Could not find chat content on page")`, the spec's
`ContentNotFoundError`). -/
inductive ExtractError where
  | contentNotFound
deriving DecidableEq

/-- The modelled side effects of `extract_chat`: dumping the page markup to
the debug artifact, and the no-messages warning. -/
inductive Event where
  | debugDump (page : Element)
  | warnNoMessages

/-- The probing loop over `selectors_to_try`: the first selector matching at
least one element, else `none`. -/
def probeSelectors (page : Element) : Option Selector :=
  selectors_to_try.find? (fun s => !(querySelectorAll page s).isEmpty)

/-- `extract_chat`: probe the selectors; on total failure dump the page and
raise; otherwise extract title and messages, warn when no messages were
extracted, and assemble the output record.  `now` stands for
`datetime.utcnow().isoformat()`. -/
def extract_chat (page : Element) (share_url : String) (now : String) :
    List Event × Except ExtractError ChatDocument :=
  (probeSelectors page).elim
    ([Event.debugDump page], Except.error ExtractError.contentNotFound)
    (fun _ =>
    let title := extractTitle page
    let messages := extractMessages page
    let cid := chat_id share_url
    let warns := if messages.length = 0 then [Event.warnNoMessages] else []
    (warns,
     Except.ok
       { metadata :=
           { source := "chatgpt"
             chat_id := cid
             title := title
             extracted_at := now ++ "Z"
             url := share_url
             message_count := messages.length }
         messages := messages }))

/-! ## Helper lemmas -/

/-- A fold that conditionally appends a singleton is a `filterMap`. -/
theorem foldl_pushIf {α β : Type} (p : α → Prop) [DecidablePred p] (g : α → β)
    (l : List α) (acc : List β) :
    l.foldl (fun a x => if p x then a ++ [g x] else a) acc
      = acc ++ l.filterMap (fun x => if p x then some (g x) else none) := by
  induction l generalizing acc with
  | nil => simp
  | cons x xs ih =>
    by_cases hx : p x <;> simp [List.foldl_cons, hx, ih, List.filterMap_cons]

/-- A fold that unconditionally appends a singleton is a `map`. -/
theorem foldl_push {α β : Type} (g : α → β) (l : List α) (acc : List β) :
    l.foldl (fun a x => a ++ [g x]) acc = acc ++ l.map g := by
  induction l generalizing acc with
  | nil => simp
  | cons x xs ih => simp [List.foldl_cons, ih]

theorem strategy1_eq (els : List Element) :
    strategy1 els
      = els.filterMap (fun el =>
          if jsTrim (contentSource el) ≠ "" then
            some { role := roleValue el, content := jsTrim (contentSource el) }
          else none) := by
  simpa [strategy1] using foldl_pushIf (fun el => jsTrim (contentSource el) ≠ "")
    (fun el => ({ role := roleValue el, content := jsTrim (contentSource el) } : Message))
    els []

theorem strategy2_eq (arts : List Element) :
    strategy2 arts
      = arts.enum.filterMap (fun ia =>
          if jsTrim ia.2.innerText ≠ "" then
            some { role := if ia.1 % 2 = 0 then "user" else "assistant",
                   content := jsTrim ia.2.innerText }
          else none) := by
  simpa [strategy2] using foldl_pushIf (fun ia : Nat × Element => jsTrim ia.2.innerText ≠ "")
    (fun ia => ({ role := if ia.1 % 2 = 0 then "user" else "assistant",
                  content := jsTrim ia.2.innerText } : Message)) arts.enum []

theorem strategy3_eq (page : Element) :
    strategy3 page
      = ((querySelectorAll page (.tag "div")).filter contentDivFilter).enum.map
          (fun ia => { role := if ia.1 % 2 = 0 then "user" else "assistant",
                       content := jsTrim ia.2.innerText }) := by
  simpa [strategy3] using foldl_push
    (fun ia : Nat × Element =>
      ({ role := if ia.1 % 2 = 0 then "user" else "assistant",
         content := jsTrim ia.2.innerText } : Message))
    ((querySelectorAll page (.tag "div")).filter contentDivFilter).enum []

theorem extractMessages_roleCase (page : Element)
    (h : querySelectorAll page roleSelector ≠ []) :
    extractMessages page = strategy1 (querySelectorAll page roleSelector) := by
  simp [extractMessages, List.length_pos.mpr h]

theorem extractMessages_articleCase (page : Element)
    (h1 : querySelectorAll page roleSelector = [])
    (h2 : querySelectorAll page (.tag "article") ≠ []) :
    extractMessages page = strategy2 (querySelectorAll page (.tag "article")) := by
  simp [extractMessages, h1, List.length_pos.mpr h2]

theorem extractMessages_divCase (page : Element)
    (h1 : querySelectorAll page roleSelector = [])
    (h2 : querySelectorAll page (.tag "article") = []) :
    extractMessages page = strategy3 page := by
  simp [extractMessages, h1, h2]

theorem dropWhile_head_false {α : Type} {p : α → Bool} :
    ∀ {l : List α} {c : α} {cs : List α}, l.dropWhile p = c :: cs → p c = false := by
  intro l
  induction l with
  | nil => intro c cs h; simp [List.dropWhile] at h
  | cons a as ih =>
    intro c cs h
    rw [List.dropWhile_cons] at h
    cases hp : p a with
    | true => rw [hp] at h; simp at h; exact ih h
    | false =>
      rw [hp] at h; simp at h
      obtain ⟨rfl, rfl⟩ := h
      exact hp

theorem trimChars_trimChars_ne_nil {l : List Char} (h : trimChars l ≠ []) :
    trimChars (trimChars l) ≠ [] := by
  obtain ⟨c, cs, hd⟩ : ∃ c cs,
      (l.dropWhile Char.isWhitespace).reverse.dropWhile Char.isWhitespace = c :: cs := by
    rcases hx : (l.dropWhile Char.isWhitespace).reverse.dropWhile Char.isWhitespace
      with _ | ⟨c, cs⟩
    · exact absurd (by simp [trimChars, hx]) h
    · exact ⟨c, cs, rfl⟩
  have hwc : Char.isWhitespace c = false := dropWhile_head_false hd
  have htl : trimChars l = (c :: cs).reverse := by rw [trimChars, hd]
  rw [htl]
  have s1 : (c :: cs).reverse.dropWhile Char.isWhitespace ≠ [] := by
    rw [Ne, List.dropWhile_eq_nil_iff]
    intro hall
    have hc := hall c (by simp)
    rw [hwc] at hc
    exact Bool.false_ne_true hc
  obtain ⟨c2, cs2, hd2⟩ : ∃ c2 cs2,
      (c :: cs).reverse.dropWhile Char.isWhitespace = c2 :: cs2 := by
    rcases hx : (c :: cs).reverse.dropWhile Char.isWhitespace with _ | ⟨c2, cs2⟩
    · exact absurd hx s1
    · exact ⟨c2, cs2, rfl⟩
  have hwc2 : Char.isWhitespace c2 = false := dropWhile_head_false hd2
  have s2 : (c2 :: cs2).reverse.dropWhile Char.isWhitespace ≠ [] := by
    rw [Ne, List.dropWhile_eq_nil_iff]
    intro hall
    have hc := hall c2 (by simp)
    rw [hwc2] at hc
    exact Bool.false_ne_true hc
  rw [trimChars, hd2]
  simpa using s2

theorem jsTrim_eq_empty_iff (s : String) : jsTrim s = "" ↔ trimChars s.data = [] := by
  constructor
  · intro h
    have hd := congrArg String.data h
    simpa [jsTrim] using hd
  · intro h
    rw [jsTrim, h]

theorem jsTrim_jsTrim_ne_empty {s : String} (h : jsTrim s ≠ "") :
    jsTrim (jsTrim s) ≠ "" := by
  rw [Ne, jsTrim_eq_empty_iff] at h ⊢
  exact trimChars_trimChars_ne_nil h

theorem jsTrim_ne_empty_of_length {s : String} (h : 50 < (jsTrim s).length) :
    jsTrim s ≠ "" := by
  intro he
  rw [he] at h
  exact absurd h (by decide)

theorem snd_mem_of_mem_enumFrom {α : Type} :
    ∀ {l : List α} {n : Nat} {x : Nat × α}, x ∈ l.enumFrom n → x.2 ∈ l := by
  intro l
  induction l with
  | nil => intro n x h; simp [List.enumFrom] at h
  | cons a as ih =>
    intro n x h
    rw [List.enumFrom] at h
    rcases List.mem_cons.mp h with h1 | h2
    · subst h1; simp
    · exact List.mem_cons_of_mem _ (ih h2)

theorem snd_mem_of_mem_enum {α : Type} {l : List α} {x : Nat × α}
    (h : x ∈ l.enum) : x.2 ∈ l :=
  snd_mem_of_mem_enumFrom h

theorem splitSlash_ne_nil : ∀ l : List Char, splitSlash l ≠ [] := by
  intro l
  induction l with
  | nil => simp [splitSlash]
  | cons c cs ih =>
    by_cases hc : c = '/'
    · simp [splitSlash, hc]
    · cases hx : splitSlash cs with
      | nil => simp [splitSlash, hc, hx]
      | cons r rs => simp [splitSlash, hc, hx]

theorem splitSlash_no_slash : ∀ {l : List Char}, '/' ∉ l → splitSlash l = [l] := by
  intro l
  induction l with
  | nil => intro _; rfl
  | cons c cs ih =>
    intro h
    have hc : ¬(c = '/') := by
      intro e; subst e; exact h (List.mem_cons_self _ _)
    have hcs : '/' ∉ cs := fun hm => h (List.mem_cons_of_mem _ hm)
    simp [splitSlash, hc, ih hcs]

theorem splitSlash_two_le : ∀ {l : List Char}, '/' ∈ l → 2 ≤ (splitSlash l).length := by
  intro l
  induction l with
  | nil => intro h; simp at h
  | cons c cs ih =>
    intro h
    by_cases hc : c = '/'
    · have hne := splitSlash_ne_nil cs
      have hlen : 0 < (splitSlash cs).length := List.length_pos.mpr hne
      simp [splitSlash, hc]
      omega
    · have hcs : '/' ∈ cs := by
        rcases List.mem_cons.mp h with h1 | h2
        · exact absurd h1.symm hc
        · exact h2
      have h2 := ih hcs
      rcases hx : splitSlash cs with _ | ⟨r, rs⟩
      · exact absurd hx (splitSlash_ne_nil cs)
      · rw [hx] at h2
        simp [splitSlash, hc, hx]
        simp at h2
        omega

theorem getLastD_splitSlash : ∀ (pre suf : List Char), '/' ∉ suf →
    (splitSlash (pre ++ '/' :: suf)).getLastD [] = suf := by
  intro pre
  induction pre with
  | nil =>
    intro suf hs
    simp [splitSlash, splitSlash_no_slash hs]
  | cons c pre ih =>
    intro suf hs
    have hmem : '/' ∈ pre ++ '/' :: suf := by simp
    have h2 := splitSlash_two_le hmem
    by_cases hc : c = '/'
    · have hstep : splitSlash ((c :: pre) ++ '/' :: suf)
          = [] :: splitSlash (pre ++ '/' :: suf) := by
        simp [splitSlash, hc]
      rw [hstep, List.getLastD_cons]
      exact ih suf hs
    · rcases hx : splitSlash (pre ++ '/' :: suf) with _ | ⟨r, rs⟩
      · exact absurd hx (splitSlash_ne_nil _)
      · have hrs_ne : rs ≠ [] := by
          rw [hx] at h2
          simp at h2
          intro he
          rw [he] at h2
          simp at h2
        have hstep : splitSlash ((c :: pre) ++ '/' :: suf) = (c :: r) :: rs := by
          simp [splitSlash, hc, hx]
        have ihv := ih suf hs
        rw [hx] at ihv
        rw [hstep, List.getLastD_cons]
        rw [List.getLastD_cons] at ihv
        rcases hy : rs with _ | ⟨q, qs⟩
        · exact absurd hy hrs_ne
        · rw [hy] at ihv
          rw [List.getLastD_cons] at ihv ⊢
          exact ihv

theorem chat_id_of_split (url : String) (pre suf : List Char)
    (hurl : url.data = pre ++ '/' :: suf) (hs : '/' ∉ suf) :
    chat_id url = String.mk suf := by
  rw [chat_id, hurl, getLastD_splitSlash pre suf hs]

theorem extract_chat_ok {page : Element} {url now : String} {doc : ChatDocument}
    (h : (extract_chat page url now).2 = Except.ok doc) :
    doc = { metadata :=
              { source := "chatgpt"
                chat_id := chat_id url
                title := extractTitle page
                extracted_at := now ++ "Z"
                url := url
                message_count := (extractMessages page).length }
            messages := extractMessages page } := by
  cases hp : probeSelectors page with
  | none => simp [extract_chat, hp] at h
  | some s =>
    simp [extract_chat, hp] at h
    exact h.symm

/-! ## Concrete pages used by counterexamples and witnesses -/

/-- A page whose only role-marked element has whitespace-only text while an
`article` holds real text: strategy 1 is selected (the marker is present)
yet yields zero messages, and strategy 2 is never run. -/
def gatePage : Element :=
  .mk "html" [] "   Hello"
    [.mk "div" [("data-message-author-role", "user")] "   " [],
     .mk "article" [] "Hello" []]

/-- A page whose role-marked element contains a plain `div` child (no
markdown/message-classed descendant): the child text is used as content. -/
def divFallbackPage : Element :=
  .mk "html" [] "PARENT"
    [.mk "div" [("data-message-author-role", "user")] "PARENT"
       [.mk "div" [] "CHILD" []]]

/-- A role-free page with two `article` blocks. -/
def articlesPage : Element :=
  .mk "html" [] "Hi Hello there"
    [.mk "article" [] "Hi" [],
     .mk "article" [] "Hello there" []]

/-- A page with neither role markers nor `article` blocks, holding one long
text `div` and a bare `main` element. -/
def divsPage : Element :=
  .mk "html" [] "This is a sufficiently long user message exceeding the threshold."
    [.mk "div" [] "This is a sufficiently long user message exceeding the threshold." [],
     .mk "main" [] "" []]

/-- A page matching the `main` probe selector but yielding no messages. -/
def mainOnlyPage : Element :=
  .mk "html" [] "" [.mk "main" [] "" []]

/-- A page matching none of the probed selectors. -/
def emptyPage : Element :=
  .mk "html" [] "" []

/-- A page whose only heading has whitespace-only text. -/
def blankTitlePage : Element :=
  .mk "html" [] "   " [.mk "h1" [] "   " [], .mk "main" [] "" []]

/-! ## Claims -/

/-- C1, counterexample: on `gatePage` the role-attribute strategy is selected
and yields zero messages, yet the tagged-block strategy — which would yield a
message — is never run: `extract` returns the empty list, refuting "whenever
an earlier strategy yields zero messages the next strategy is tried". -/
theorem strategy_first_nonempty_counterexample :
    querySelectorAll gatePage roleSelector ≠ []
      ∧ extractMessages gatePage = []
      ∧ strategy2 (querySelectorAll gatePage (.tag "article"))
          = [{ role := "user", content := "Hello" }] := by
  refine ⟨?_, ?_, ?_⟩
  · simp +decide [gatePage, querySelectorAll, domElements, preorderList, matchesSel,
      Element.getAttribute, Element.tag, Element.attrs, roleSelector]
  · simp +decide [gatePage, extractMessages, querySelectorAll, domElements, preorderList,
      matchesSel, Element.getAttribute, Element.tag, Element.attrs, roleSelector,
      strategy1, contentSource, Element.querySelector, strictDescendants, contentSelectors,
      matchesAny, roleValue, Element.innerText, Element.children]
  · simp +decide [gatePage, querySelectorAll, domElements, preorderList, matchesSel,
      Element.tag, strategy2, Element.innerText, List.enum, List.enumFrom,
      Element.getAttribute, Element.attrs]

/-- C1 (amended): the strategy selector is gated on the presence of candidate
elements, not on a strategy's message yield: strategy 1 runs exactly when some
element carries the role attribute (its result is returned even when empty);
strategy 2 runs exactly when no element carries the marker but an `article`
exists; strategy 3 runs only when both candidate sets are empty. -/
theorem strategy_selection_gated_on_candidates (page : Element) :
    (querySelectorAll page roleSelector ≠ [] →
        extractMessages page = strategy1 (querySelectorAll page roleSelector))
      ∧ (querySelectorAll page roleSelector = [] →
          querySelectorAll page (.tag "article") ≠ [] →
            extractMessages page = strategy2 (querySelectorAll page (.tag "article")))
      ∧ (querySelectorAll page roleSelector = [] →
          querySelectorAll page (.tag "article") = [] →
            extractMessages page = strategy3 page) :=
  ⟨extractMessages_roleCase page, extractMessages_articleCase page,
   extractMessages_divCase page⟩

theorem strategy_selection_gated_on_candidates_witness :
    extractMessages gatePage = strategy1 (querySelectorAll gatePage roleSelector) :=
  (strategy_selection_gated_on_candidates gatePage).1
    (by simp +decide [gatePage, querySelectorAll, domElements, preorderList, matchesSel,
      Element.getAttribute, Element.tag, Element.attrs, roleSelector])

/-- C2, counterexample: on `divFallbackPage` the role-marked element has no
markdown- or message-classed descendant, yet its content is taken from the
plain `div` child ("CHILD"), not from the element's own text ("PARENT"),
refuting "otherwise uses the element's own full text; no other fallback
source is used". -/
theorem role_content_plain_div_counterexample :
    ((strictDescendants
        (Element.mk "div" [("data-message-author-role", "user")] "PARENT"
          [Element.mk "div" [] "CHILD" []])).all
      (fun d => !matchesSel (.attrContains "class" "markdown") d
        && !matchesSel (.attrContains "class" "message") d)) = true
      ∧ extractMessages divFallbackPage = [{ role := "user", content := "CHILD" }]
      ∧ jsTrim "PARENT" ≠ "CHILD" := by
  refine ⟨?_, ?_, by decide⟩
  · simp +decide [strictDescendants, preorderList, matchesSel, Element.getAttribute,
      Element.attrs, Element.children]
  · simp +decide [divFallbackPage, extractMessages, querySelectorAll, domElements,
      preorderList, matchesSel, Element.getAttribute, Element.tag, Element.attrs,
      roleSelector, strategy1, contentSource, Element.querySelector, strictDescendants,
      contentSelectors, matchesAny, roleValue, Element.innerText, Element.children]

/-- C2 (amended): for every page with role-marked elements, each one's content
is taken from its first descendant in document order matching
`[class*="markdown"]`, `[class*="message"]` or `div` when one exists, else
from the element's own text; the trimmed content is kept when non-empty, with
the role attribute passed through verbatim. -/
theorem role_strategy_content_source (page : Element)
    (h : querySelectorAll page roleSelector ≠ []) :
    extractMessages page
      = (querySelectorAll page roleSelector).filterMap (fun el =>
          let content :=
            ((strictDescendants el).find?
                (matchesAny [.attrContains "class" "markdown",
                             .attrContains "class" "message", .tag "div"])).elim
              el.innerText (fun ce => ce.innerText)
          if jsTrim content ≠ "" then
            some { role := roleValue el, content := jsTrim content }
          else none) := by
  rw [extractMessages_roleCase page h, strategy1_eq]
  rfl

theorem role_strategy_content_source_witness :
    extractMessages divFallbackPage
      = (querySelectorAll divFallbackPage roleSelector).filterMap (fun el =>
          let content :=
            ((strictDescendants el).find?
                (matchesAny [.attrContains "class" "markdown",
                             .attrContains "class" "message", .tag "div"])).elim
              el.innerText (fun ce => ce.innerText)
          if jsTrim content ≠ "" then
            some { role := roleValue el, content := jsTrim content }
          else none) :=
  role_strategy_content_source divFallbackPage
    (by simp +decide [divFallbackPage, querySelectorAll, domElements, preorderList,
      matchesSel, Element.getAttribute, Element.tag, Element.attrs, roleSelector])

/-- C3: on a page without role markers but with `article` blocks, the
tagged-block strategy emits, in document order, the block at even zero-based
index as "user" and at odd index as "assistant" (blocks whose trimmed text is
empty are dropped, but the alternation index is the document-order index). -/
theorem tagged_block_alternation (page : Element)
    (h1 : querySelectorAll page roleSelector = [])
    (h2 : querySelectorAll page (.tag "article") ≠ []) :
    extractMessages page
      = (querySelectorAll page (.tag "article")).enum.filterMap (fun ia =>
          if jsTrim ia.2.innerText ≠ "" then
            some { role := if ia.1 % 2 = 0 then "user" else "assistant",
                   content := jsTrim ia.2.innerText }
          else none) := by
  rw [extractMessages_articleCase page h1 h2, strategy2_eq]

theorem tagged_block_alternation_witness :
    extractMessages articlesPage
      = [{ role := "user", content := "Hi" },
         { role := "assistant", content := "Hello there" }] := by
  have h := tagged_block_alternation articlesPage
    (by simp +decide [articlesPage, querySelectorAll, domElements, preorderList,
      matchesSel, Element.getAttribute, Element.tag, Element.attrs, roleSelector])
    (by simp +decide [articlesPage, querySelectorAll, domElements, preorderList,
      matchesSel, Element.tag])
  rw [h]
  simp +decide [articlesPage, querySelectorAll, domElements, preorderList, matchesSel,
    Element.tag, Element.innerText, List.enum, List.enumFrom]

/-- C4: on a page with neither role markers nor `article` blocks, the
heuristic strategy keeps exactly the `div` elements whose trimmed text is
strictly longer than 50 characters and which have fewer than 5 child
elements, and labels the filtered, document-ordered list alternately
"user"/"assistant" by filtered index. -/
theorem heuristic_text_block_filter (page : Element)
    (h1 : querySelectorAll page roleSelector = [])
    (h2 : querySelectorAll page (.tag "article") = []) :
    extractMessages page
      = ((querySelectorAll page (.tag "div")).filter (fun d =>
            decide (50 < (jsTrim d.innerText).length)
              && decide (d.children.length < 5))).enum.map
          (fun ia => { role := if ia.1 % 2 = 0 then "user" else "assistant",
                       content := jsTrim ia.2.innerText }) := by
  rw [extractMessages_divCase page h1 h2, strategy3_eq]
  have hpt : ∀ d : Element, contentDivFilter d
      = (decide (50 < (jsTrim d.innerText).length)
          && decide (d.children.length < 5)) := by
    intro d
    by_cases hd : d.innerText = ""
    · have hj : jsTrim "" = "" := rfl
      simp +decide [contentDivFilter, hd, hj]
    · simp [contentDivFilter, hd]
  have h3 : ∀ d ∈ querySelectorAll page (Selector.tag "div"), contentDivFilter d
      = (decide (50 < (jsTrim d.innerText).length)
          && decide (d.children.length < 5)) := fun d _ => hpt d
  rw [List.filter_congr h3]

theorem heuristic_text_block_filter_witness :
    extractMessages divsPage
      = [{ role := "user",
           content := "This is a sufficiently long user message exceeding the threshold." }] := by
  have h := heuristic_text_block_filter divsPage
    (by simp +decide [divsPage, querySelectorAll, domElements, preorderList,
      matchesSel, Element.getAttribute, Element.tag, Element.attrs, roleSelector])
    (by simp +decide [divsPage, querySelectorAll, domElements, preorderList,
      matchesSel, Element.tag])
  rw [h]
  simp +decide [divsPage, querySelectorAll, domElements, preorderList, matchesSel,
    Element.tag, Element.innerText, Element.children, List.enum, List.enumFrom]

/-- C5: the assembled document's chat_id is the substring of the URL after its
final slash — the last segment of the split on `/` — with no decoding and no
validation; a URL ending in `/` yields the empty chat_id (the case
`suf = []`). -/
theorem chat_id_last_url_segment (page : Element) (url now : String)
    (doc : ChatDocument) (pre suf : List Char)
    (h : (extract_chat page url now).2 = Except.ok doc)
    (hurl : url.data = pre ++ '/' :: suf) (hs : '/' ∉ suf) :
    doc.metadata.chat_id = String.mk suf := by
  rw [extract_chat_ok h]
  exact chat_id_of_split url pre suf hurl hs

/-- The document assembled from `articlesPage` at the example URL. -/
def articlesDoc : ChatDocument :=
  { metadata := { source := "chatgpt", chat_id := "abc-123", title := "Untitled Chat",
                  extracted_at := "TZ", url := "https://chatgpt.com/share/abc-123",
                  message_count := 2 },
    messages := [{ role := "user", content := "Hi" },
                 { role := "assistant", content := "Hello there" }] }

theorem chat_id_last_url_segment_witness :
    (extract_chat articlesPage "https://chatgpt.com/share/abc-123" "T").2
        = Except.ok articlesDoc
      ∧ articlesDoc.metadata.chat_id = "abc-123" := by
  have hprobe : probeSelectors articlesPage = some (.tag "article") := by
    simp +decide [probeSelectors, selectors_to_try, querySelectorAll, domElements,
      preorderList, matchesSel, Element.tag, Element.getAttribute, Element.attrs,
      articlesPage]
  have htitle : extractTitle articlesPage = "Untitled Chat" := by
    have h : docQuerySelector articlesPage titleSelectors = none := by
      simp +decide [docQuerySelector, titleSelectors, domElements, preorderList,
        matchesAny, matchesSel, Element.tag, Element.getAttribute, Element.attrs,
        articlesPage]
    simp [extractTitle, h]
  have hmsgs : extractMessages articlesPage
      = [{ role := "user", content := "Hi" },
         { role := "assistant", content := "Hello there" }] := by
    simp +decide [articlesPage, extractMessages, querySelectorAll, domElements,
      preorderList, matchesSel, Element.getAttribute, Element.tag, Element.attrs,
      roleSelector, strategy2, Element.innerText, List.enum, List.enumFrom]
  have hcid : chat_id "https://chatgpt.com/share/abc-123" = "abc-123" := by decide
  have hok : (extract_chat articlesPage "https://chatgpt.com/share/abc-123" "T").2
      = Except.ok articlesDoc := by
    simp [extract_chat, hprobe, htitle, hmsgs, hcid, articlesDoc]
  refine ⟨hok, ?_⟩
  exact chat_id_last_url_segment articlesPage "https://chatgpt.com/share/abc-123" "T"
    articlesDoc "https://chatgpt.com/share".data "abc-123".data hok
    (by decide) (by decide)

/-- C6: every document assembled by `extract_chat` has `message_count` equal
to the length of its `messages` sequence. -/
theorem message_count_eq_length (page : Element) (url now : String)
    (doc : ChatDocument)
    (h : (extract_chat page url now).2 = Except.ok doc) :
    doc.metadata.message_count = doc.messages.length := by
  rw [extract_chat_ok h]

theorem message_count_eq_length_witness :
    (extract_chat articlesPage "https://chatgpt.com/share/abc-123" "T").2
        = Except.ok articlesDoc
      ∧ articlesDoc.metadata.message_count = articlesDoc.messages.length := by
  have hprobe : probeSelectors articlesPage = some (.tag "article") := by
    simp +decide [probeSelectors, selectors_to_try, querySelectorAll, domElements,
      preorderList, matchesSel, Element.tag, Element.getAttribute, Element.attrs,
      articlesPage]
  have htitle : extractTitle articlesPage = "Untitled Chat" := by
    have h : docQuerySelector articlesPage titleSelectors = none := by
      simp +decide [docQuerySelector, titleSelectors, domElements, preorderList,
        matchesAny, matchesSel, Element.tag, Element.getAttribute, Element.attrs,
        articlesPage]
    simp [extractTitle, h]
  have hmsgs : extractMessages articlesPage
      = [{ role := "user", content := "Hi" },
         { role := "assistant", content := "Hello there" }] := by
    simp +decide [articlesPage, extractMessages, querySelectorAll, domElements,
      preorderList, matchesSel, Element.getAttribute, Element.tag, Element.attrs,
      roleSelector, strategy2, Element.innerText, List.enum, List.enumFrom]
  have hcid : chat_id "https://chatgpt.com/share/abc-123" = "abc-123" := by decide
  have hok : (extract_chat articlesPage "https://chatgpt.com/share/abc-123" "T").2
      = Except.ok articlesDoc := by
    simp [extract_chat, hprobe, htitle, hmsgs, hcid, articlesDoc]
  exact ⟨hok, message_count_eq_length articlesPage "https://chatgpt.com/share/abc-123"
    "T" articlesDoc hok⟩

/-- C7: every message produced by any of the three extraction strategies has
content that is non-empty after trimming; candidates with empty trimmed
content never reach the output. -/
theorem message_content_nonempty (page : Element) (m : Message)
    (hm : m ∈ extractMessages page) : jsTrim m.content ≠ "" := by
  by_cases h1 : querySelectorAll page roleSelector = []
  · by_cases h2 : querySelectorAll page (.tag "article") = []
    · rw [extractMessages_divCase page h1 h2, strategy3_eq] at hm
      obtain ⟨ia, hmem, rfl⟩ := List.mem_map.mp hm
      have hdiv := snd_mem_of_mem_enum hmem
      have hfil := (List.mem_filter.mp hdiv).2
      rw [contentDivFilter] at hfil
      simp only [Bool.and_eq_true, decide_eq_true_eq] at hfil
      exact jsTrim_jsTrim_ne_empty (jsTrim_ne_empty_of_length hfil.1.2)
    · rw [extractMessages_articleCase page h1 h2, strategy2_eq] at hm
      obtain ⟨ia, hmem, hf⟩ := List.mem_filterMap.mp hm
      by_cases hc : jsTrim ia.2.innerText ≠ ""
      · rw [if_pos hc] at hf
        obtain rfl := Option.some.inj hf
        exact jsTrim_jsTrim_ne_empty hc
      · rw [if_neg hc] at hf
        cases hf
  · rw [extractMessages_roleCase page h1, strategy1_eq] at hm
    obtain ⟨el, hmem, hf⟩ := List.mem_filterMap.mp hm
    by_cases hc : jsTrim (contentSource el) ≠ ""
    · rw [if_pos hc] at hf
      obtain rfl := Option.some.inj hf
      exact jsTrim_jsTrim_ne_empty hc
    · rw [if_neg hc] at hf
      cases hf

theorem message_content_nonempty_witness : jsTrim "Hi" ≠ "" := by
  have hmem : ({ role := "user", content := "Hi" } : Message)
      ∈ extractMessages articlesPage := by
    have hmsgs : extractMessages articlesPage
        = [{ role := "user", content := "Hi" },
           { role := "assistant", content := "Hello there" }] := by
      simp +decide [articlesPage, extractMessages, querySelectorAll, domElements,
        preorderList, matchesSel, Element.getAttribute, Element.tag, Element.attrs,
        roleSelector, strategy2, Element.innerText, List.enum, List.enumFrom]
    rw [hmsgs]
    exact List.mem_cons_self _ _
  exact message_content_nonempty articlesPage { role := "user", content := "Hi" } hmem

/-- C8: when no probed selector matches any element, `extract_chat` dumps the
full page markup to the debug artifact and terminates with the
content-not-found error; no document is assembled. -/
theorem probe_failure_dump_and_error (page : Element) (url now : String)
    (h : probeSelectors page = none) :
    extract_chat page url now
      = ([Event.debugDump page], Except.error ExtractError.contentNotFound) := by
  simp [extract_chat, h]

theorem probe_failure_dump_and_error_witness :
    extract_chat emptyPage "u" "T"
      = ([Event.debugDump emptyPage], Except.error ExtractError.contentNotFound) :=
  probe_failure_dump_and_error emptyPage "u" "T"
    (by simp +decide [probeSelectors, selectors_to_try, querySelectorAll, domElements,
      preorderList, matchesSel, Element.tag, Element.getAttribute, Element.attrs,
      emptyPage])

/-- C9: when a probed selector matched but extraction yields zero messages,
no error is raised: the no-messages warning is emitted and a valid document
with an empty message sequence and message_count 0 is returned. -/
theorem empty_extraction_warns (page : Element) (url now : String) (s : Selector)
    (hp : probeSelectors page = some s) (hm : extractMessages page = []) :
    (extract_chat page url now).1 = [Event.warnNoMessages]
      ∧ ∃ doc, (extract_chat page url now).2 = Except.ok doc
          ∧ doc.messages = [] ∧ doc.metadata.message_count = 0 := by
  refine ⟨by simp [extract_chat, hp, hm], ?_⟩
  refine ⟨{ metadata := { source := "chatgpt", chat_id := chat_id url,
                          title := extractTitle page, extracted_at := now ++ "Z",
                          url := url, message_count := 0 },
            messages := [] }, ?_, rfl, rfl⟩
  simp [extract_chat, hp, hm]

theorem empty_extraction_warns_witness :
    (extract_chat mainOnlyPage "u" "T").1 = [Event.warnNoMessages]
      ∧ ∃ doc, (extract_chat mainOnlyPage "u" "T").2 = Except.ok doc
          ∧ doc.messages = [] ∧ doc.metadata.message_count = 0 := by
  have hp : probeSelectors mainOnlyPage = some (.tag "main") := by
    simp +decide [probeSelectors, selectors_to_try, querySelectorAll, domElements,
      preorderList, matchesSel, Element.tag, Element.getAttribute, Element.attrs,
      mainOnlyPage]
  have hm : extractMessages mainOnlyPage = [] := by
    simp +decide [mainOnlyPage, extractMessages, strategy3, querySelectorAll,
      domElements, preorderList, matchesSel, Element.getAttribute, Element.tag,
      Element.attrs, roleSelector, contentDivFilter, Element.innerText,
      Element.children, List.enum, List.enumFrom]
  exact empty_extraction_warns mainOnlyPage "u" "T" (.tag "main") hp hm

/-- C10: the "Untitled Chat" placeholder is used exactly when no heading-like
element matches; when one matches, its trimmed text is the title even when it
is empty, so a matched heading with whitespace-only text yields the empty
title, not the placeholder. -/
theorem title_placeholder_only_no_match (page : Element) :
    (docQuerySelector page titleSelectors = none →
        extractTitle page = "Untitled Chat")
      ∧ ∀ el, docQuerySelector page titleSelectors = some el →
          jsTrim el.innerText = "" → extractTitle page = "" := by
  constructor
  · intro h
    simp [extractTitle, h]
  · intro el h he
    simp [extractTitle, h, he]

theorem title_placeholder_only_no_match_witness :
    extractTitle blankTitlePage = "" ∧ extractTitle emptyPage = "Untitled Chat" := by
  have hq : docQuerySelector blankTitlePage titleSelectors
      = some (Element.mk "h1" [] "   " []) := by
    simp +decide [docQuerySelector, titleSelectors, domElements, preorderList,
      matchesAny, matchesSel, Element.tag, Element.getAttribute, Element.attrs,
      blankTitlePage]
  have hq2 : docQuerySelector emptyPage titleSelectors = none := by
    simp +decide [docQuerySelector, titleSelectors, domElements, preorderList,
      matchesAny, matchesSel, Element.tag, Element.getAttribute, Element.attrs,
      emptyPage]
  exact ⟨(title_placeholder_only_no_match blankTitlePage).2
           (Element.mk "h1" [] "   " []) hq (by decide),
         (title_placeholder_only_no_match emptyPage).1 hq2⟩
